import Mathlib

/-!
Shallow embedding of the contract-analysis backend (src/backend/main.py).

The backend is a FastAPI service over a SQL store.  We embed it as pure
functions over an explicit store state:

* the three tables (users, documents, chunks) are lists of records, in
  insertion order;
* uuid4 primary-key generation is modelled by a fresh-id counter
  (next_id), datetime.utcnow by a logical clock (now);
* HTTPException(status, detail) is modelled by the Http record and
  fallible endpoints return Except Http;
* SQLAlchemy JSONB metadata dicts are association lists over JVal;
* float embedding vectors are opaque here (List Int): no claim computes
  with their values, and the code itself only stores them;
* a SQL SELECT without ORDER BY returns rows in an unspecified order, so
  read endpoints that depend on row order (list_contracts,
  query_contracts) take the table rows as an explicit argument: any
  permutation of the stored rows is a possible execution;
* external capabilities (bcrypt, the jwt library, the mocked LlamaCloud
  parser whose embeddings are np.random.rand) are modelled from the spec
  as opaque deterministic functions or as explicit parameters.
-/

namespace ContractIQ

/-- A JSONB metadata value: the mock parser stores numbers (page) and
strings (contract_name). -/
inductive JVal where
| num (n : Int)
| str (s : String)
deriving DecidableEq, Repr

/-- Python dict.get(key, default) on a JSONB object modelled as an
association list. -/
def jsonGet (m : List (String × JVal)) (k : String) (d : JVal) : JVal :=
  match m.lookup k with
  | some v => v
  | none => d

/-- users table row (class User, main.py lines 29-39). -/
structure User where
  user_id : Nat
  username : String
  email : String
  password_hash : String
  created_at : Nat
deriving DecidableEq, Repr

/-- documents table row (class Document, main.py lines 41-53). -/
structure Document where
  doc_id : Nat
  user_id : Nat
  filename : String
  uploaded_on : Nat
  status : String
  risk_score : String
deriving DecidableEq, Repr

/-- chunks table row (class Chunk, main.py lines 55-68). -/
structure Chunk where
  chunk_id : Nat
  doc_id : Nat
  user_id : Nat
  text_chunk : String
  embedding : List Int
  metadata : List (String × JVal)
  page_number : JVal
  created_at : Nat
deriving DecidableEq, Repr

/-- The persistent store: the three tables in insertion order, plus the
fresh-id counter (uuid4) and logical clock (utcnow). -/
structure Store where
  users : List User
  documents : List Document
  chunks : List Chunk
  next_id : Nat
  now : Nat
deriving DecidableEq, Repr

/-- HTTPException(status_code, detail). -/
structure Http where
  status_code : Nat
  detail : String
deriving DecidableEq, Repr

/-- Modelled from the spec: the opaque one-way password-hash capability
(the external bcrypt library; src holds only its call sites).  The model
is an injective tagging so that checkpw succeeds exactly on the hashed
password. -/
def bcrypt_hashpw (password : String) : String :=
  "bcrypt$" ++ password

/-- Modelled from the spec: bcrypt.checkpw compares a plaintext password
against a stored hash. -/
def bcrypt_checkpw (password hash : String) : Bool :=
  hash == bcrypt_hashpw password

/-- Response of signup and login: the issued token is modelled by its
subject claim (the jwt library is external), plus the returned user
fields. -/
structure AuthResp where
  token_sub : Nat
  id : Nat
  username : String
  email : String
deriving DecidableEq, Repr

/-- POST /api/signup (main.py lines 140-163): reject a duplicate email
with 400, otherwise insert the user and return a token bound to the new
user id.  Returns the store after the request together with the
endpoint result. -/
def signup (db : Store) (username email password : String) :
    Store × Except Http AuthResp :=
  match db.users.find? (fun u => u.email == email) with
  | some _ => (db, Except.error ⟨400, "Email already registered"⟩)
  | none =>
    let password_hash := bcrypt_hashpw password
    let user : User := ⟨db.next_id, username, email, password_hash, db.now⟩
    ({ db with
        users := db.users ++ [user]
        next_id := db.next_id + 1
        now := db.now + 1 },
     Except.ok ⟨user.user_id, user.user_id, username, email⟩)

/-- POST /api/login (main.py lines 165-178): look up by email, compare
the password with bcrypt; both a missing user and a wrong password raise
HTTPException(401, "Invalid credentials"). -/
def login (db : Store) (email password : String) : Except Http AuthResp :=
  match db.users.find? (fun u => u.email == email) with
  | none => Except.error ⟨401, "Invalid credentials"⟩
  | some user =>
    if bcrypt_checkpw password user.password_hash then
      Except.ok ⟨user.user_id, user.user_id, user.username, user.email⟩
    else
      Except.error ⟨401, "Invalid credentials"⟩

/-- A chunk as returned by the external parsing capability
(mock_llamacloud_parse, main.py lines 114-137): extracted text, an
embedding vector and a metadata dict.  The mock fills embeddings with
np.random.rand, so theorems quantify over the parse result. -/
structure ParsedChunk where
  text : String
  embedding : List Int
  metadata : List (String × JVal)
deriving DecidableEq, Repr

/-- Response of POST /api/upload (main.py lines 220-224). -/
structure UploadResp where
  document_id : Nat
  filename : String
  chunks_processed : Nat
deriving DecidableEq, Repr

/-- The content types the upload endpoint accepts (main.py lines 186-187). -/
def allowed_content_types : List String :=
  ["application/pdf", "text/plain",
   "application/vnd.openxmlformats-officedocument.wordprocessingml.document"]

/-- The Document row the upload transaction inserts (main.py lines
197-202): owned by the requesting user, status "Active", risk "Low". -/
def upload_doc (db : Store) (uid : Nat) (filename : String) : Document :=
  ⟨db.next_id, uid, filename, db.now, "Active", "Low"⟩

/-- The Chunk rows the upload transaction inserts (main.py lines
207-216): one per parsed chunk, denormalised user_id, page_number from
metadata.get("page", 1). -/
def upload_chunks (db : Store) (uid : Nat) (cds : List ParsedChunk) :
    List Chunk :=
  cds.enum.map (fun p =>
    ⟨db.next_id + 1 + p.1, db.next_id, uid, p.2.text, p.2.embedding,
     p.2.metadata, jsonGet p.2.metadata "page" (JVal.num 1), db.now⟩)

/-- POST /api/upload (main.py lines 180-224).  The whole handler runs in
one SQLAlchemy session that only db.commit() publishes; any exception
before or at commit propagates and the session is rolled back on close,
so a failed request leaves the store unchanged.  parse_result is the
outcome of the external parsing capability (Except.error _ models a
parser exception), and commit_ok injects a store failure at flush or
commit time. -/
def upload_contract (db : Store) (uid : Nat) (content_type filename : String)
    (parse_result : Except Unit (List ParsedChunk)) (commit_ok : Bool) :
    Store × Except Http UploadResp :=
  if !(allowed_content_types.contains content_type) then
    (db, Except.error ⟨400, "Unsupported file type"⟩)
  else
    match parse_result with
    | Except.error _ => (db, Except.error ⟨500, "Internal Server Error"⟩)
    | Except.ok cds =>
      if commit_ok then
        ({ db with
            documents := db.documents ++ [upload_doc db uid filename]
            chunks := db.chunks ++ upload_chunks db uid cds
            next_id := db.next_id + 1 + cds.length
            now := db.now + 1 },
         Except.ok ⟨(upload_doc db uid filename).doc_id, filename, cds.length⟩)
      else
        (db, Except.error ⟨500, "Internal Server Error"⟩)

/-- One element of the GET /api/contracts response (main.py lines
231-237). -/
structure DocSummary where
  id : Nat
  name : String
  uploaded_on : Nat
  status : String
  risk_score : String
deriving DecidableEq, Repr

/-- The response dict list_contracts builds per document. -/
def docSummary (d : Document) : DocSummary :=
  ⟨d.doc_id, d.filename, d.uploaded_on, d.status, d.risk_score⟩

/-- GET /api/contracts (main.py lines 226-237): the documents filtered to
the authenticated user, with no ORDER BY.  rows is the documents table
in whatever order the store returns it: any permutation of
Store.documents is a possible execution. -/
def list_contracts (rows : List Document) (uid : Nat) : List DocSummary :=
  (rows.filter (fun d => d.user_id == uid)).map docSummary

/-- One chunk of the GET /api/contracts/{id} response (main.py lines
258-263). -/
structure ChunkView where
  id : Nat
  text : String
  page : JVal
  metadata : List (String × JVal)
deriving DecidableEq, Repr

/-- Response of GET /api/contracts/{id} (main.py lines 253-264). -/
structure ContractDetail where
  id : Nat
  name : String
  status : String
  risk_score : String
  chunks : List ChunkView
deriving DecidableEq, Repr

/-- GET /api/contracts/{id} (main.py lines 239-264): the query filters on
doc_id AND user_id together, so a missing document and another user's
document take the same branch and raise the same
HTTPException(404, "Contract not found"). -/
def get_contract (db : Store) (uid : Nat) (contract_id : Nat) :
    Except Http ContractDetail :=
  match db.documents.find? (fun d => d.doc_id == contract_id && d.user_id == uid) with
  | none => Except.error ⟨404, "Contract not found"⟩
  | some document =>
    let chunks := db.chunks.filter (fun c => c.doc_id == document.doc_id)
    Except.ok ⟨document.doc_id, document.filename, document.status,
      document.risk_score,
      chunks.map (fun c => ⟨c.chunk_id, c.text_chunk, c.page_number, c.metadata⟩)⟩

/-- One source of the POST /api/ask response (main.py lines 287-292). -/
structure Source where
  contract_name : String
  excerpt : String
  page : JVal
  relevance : Nat
deriving DecidableEq, Repr

/-- Response of POST /api/ask (main.py lines 284-293). -/
structure AskResp where
  answer : String
  confidence : Nat
  sources : List Source
deriving DecidableEq, Repr

/-- chunk.document.filename: the relationship join from a chunk to its
document row. -/
def docFilename (docs : List Document) (did : Nat) : String :=
  match docs.find? (fun d => d.doc_id == did) with
  | some d => d.filename
  | none => ""

/-- The mock AI-generated answer string (main.py lines 280-282). -/
def mock_answer (query : String) : String :=
  "Based on your contracts, here\x27s what I found regarding \x27" ++ query ++
    "\x27: Your contracts contain several relevant clauses. The most important considerations are termination procedures, liability limitations, and renewal terms."

/-- POST /api/ask (main.py lines 266-293).  chunk_rows is the chunks
table in store-returned order (no ORDER BY), docs the documents table
for the relationship join.  query_embedding models the mock
np.random.rand query embedding; like the source, the handler never uses
it: candidates are the user's chunks limited to 5, sources the first 3
of those, relevance the mock 85 + i * 3, confidence the constant 94. -/
def query_contracts (chunk_rows : List Chunk) (docs : List Document)
    (uid : Nat) (query : String) (query_embedding : List Int) : AskResp :=
  let _ := query_embedding
  let chunks := (chunk_rows.filter (fun c => c.user_id == uid)).take 5
  ⟨mock_answer query, 94,
   (chunks.take 3).enum.map (fun p =>
     ⟨docFilename docs p.2.doc_id, p.2.text_chunk, p.2.page_number,
      85 + p.1 * 3⟩)⟩

/-- The chunk/document ownership invariant of the data model: every chunk
agrees with its document on the owning user. -/
def chunkUserInv (docs : List Document) (chunks : List Chunk) : Prop :=
  ∀ c ∈ chunks, ∀ d ∈ docs, c.doc_id = d.doc_id → c.user_id = d.user_id

/-- Store well-formedness: primary keys already issued are below the
fresh-id counter, and chunks agree with their documents on ownership. -/
def storeWF (db : Store) : Prop :=
  (∀ d ∈ db.documents, d.doc_id < db.next_id)
  ∧ (∀ c ∈ db.chunks, c.doc_id < db.next_id)
  ∧ chunkUserInv db.documents db.chunks

/-! Concrete fixtures used by witnesses and counterexamples. -/

/-- A registered user. -/
def aliceW : User := ⟨0, "alice", "a@x.com", bcrypt_hashpw "pw1", 0⟩

/-- A store holding exactly the one registered user. -/
def dbW : Store := ⟨[aliceW], [], [], 1, 1⟩

/-- A document owned by user 0. -/
def docW : Document := ⟨10, 0, "lease.pdf", 1, "Active", "Low"⟩

/-- A store where user 0 owns one document. -/
def dbDocW : Store := ⟨[aliceW], [docW], [], 11, 2⟩

/-! ## Theorems -/

/-- C4: a signup whose email is already registered fails with
HTTPException(400, "Email already registered"), creates no second user,
and leaves the store exactly as it was. -/
theorem signup_duplicate_email (db : Store) (username email password : String)
    (h : ∃ u ∈ db.users, u.email = email) :
    signup db username email password
      = (db, Except.error ⟨400, "Email already registered"⟩) := by
  obtain ⟨u, hu, he⟩ := h
  unfold signup
  cases hf : db.users.find? (fun v => v.email == email) with
  | none => exact absurd (List.find?_eq_none.mp hf u hu) (by simp [he])
  | some v => rfl

/-- C4 witness: a second signup with the already-registered email
a@x.com fails with 400 and leaves the store unchanged. -/
theorem signup_duplicate_email_witness :
    signup dbW "bob" "a@x.com" "pw2"
      = (dbW, Except.error ⟨400, "Email already registered"⟩) :=
  signup_duplicate_email dbW "bob" "a@x.com" "pw2"
    ⟨aliceW, ⟨List.mem_singleton.mpr rfl, rfl⟩⟩

/-- C5: any two failing login attempts observe the same result, whether
the email is unknown or the password is wrong: both raise
HTTPException(401, "Invalid credentials"). -/
theorem login_failure_indistinguishable (db : Store) (e1 p1 e2 p2 : String)
    (r1 r2 : Http) (h1 : login db e1 p1 = Except.error r1)
    (h2 : login db e2 p2 = Except.error r2) : r1 = r2 := by
  have key : ∀ (e p : String) (r : Http), login db e p = Except.error r →
      r = ⟨401, "Invalid credentials"⟩ := by
    intro e p r h
    unfold login at h
    cases hf : db.users.find? (fun u => u.email == e) with
    | none =>
      rw [hf] at h
      exact (Except.error.inj h).symm
    | some u =>
      rw [hf] at h
      by_cases hc : bcrypt_checkpw p u.password_hash
      · simp [hc] at h
      · simp only [hc, if_false, Bool.false_eq_true, if_neg, reduceCtorEq] at h
        exact (Except.error.inj h).symm
  rw [key e1 p1 r1 h1, key e2 p2 r2 h2]

/-- C5 witness: against the store holding only alice, a login with an
unknown email and a login with alice\x27s email but the wrong password
produce the same 401 result. -/
theorem login_failure_indistinguishable_witness :
    (⟨401, "Invalid credentials"⟩ : Http) = ⟨401, "Invalid credentials"⟩ :=
  login_failure_indistinguishable dbW "bob@x.com" "pw1" "a@x.com" "wrong"
    ⟨401, "Invalid credentials"⟩ ⟨401, "Invalid credentials"⟩ rfl rfl

/-- C3: whenever no document row matches both the requested id and the
requesting user — because no document has that id, or because the only
such document belongs to a different user — get_contract returns the
one identical HTTPException(404, "Contract not found"), so the two
failure cases are observationally indistinguishable. -/
theorem get_contract_not_found (db : Store) (uid cid : Nat)
    (h : ∀ d ∈ db.documents, d.doc_id = cid → d.user_id ≠ uid) :
    get_contract db uid cid = Except.error ⟨404, "Contract not found"⟩ := by
  unfold get_contract
  cases hf : db.documents.find? (fun d => d.doc_id == cid && d.user_id == uid) with
  | none => rfl
  | some d =>
    have hd := List.find?_some hf
    have hmem := List.mem_of_find?_eq_some hf
    simp only [Bool.and_eq_true, beq_iff_eq] at hd
    exact absurd hd.2 (h d hmem hd.1)

/-- C3 witness: user 1 requesting document 10, which exists but is owned
by user 0, gets the same 404 as a request for the nonexistent document
99. -/
theorem get_contract_not_found_witness :
    get_contract dbDocW 1 10 = Except.error ⟨404, "Contract not found"⟩
    ∧ get_contract dbDocW 1 99 = Except.error ⟨404, "Contract not found"⟩ :=
  ⟨get_contract_not_found dbDocW 1 10 (by decide),
   get_contract_not_found dbDocW 1 99 (by decide)⟩

/-- C2: ingestion is all-or-nothing.  If the request fails at any step —
content-type rejection, parser failure, or an injected store failure at
flush/commit — the store afterwards is exactly the store before, so no
document or chunk of the ingestion is observable through any read
endpoint; if it succeeds, the new document and all chunks of the parse
result are appended, and the response reports the full chunk count. -/
theorem upload_atomic (db : Store) (uid : Nat) (ct fn : String)
    (pr : Except Unit (List ParsedChunk)) (co : Bool) :
    ((upload_contract db uid ct fn pr co).2.isOk = false →
      (upload_contract db uid ct fn pr co).1 = db)
    ∧ (∀ cds resp, pr = Except.ok cds →
        (upload_contract db uid ct fn pr co).2 = Except.ok resp →
        (upload_contract db uid ct fn pr co).1.documents
            = db.documents ++ [upload_doc db uid fn]
          ∧ (upload_contract db uid ct fn pr co).1.chunks
            = db.chunks ++ upload_chunks db uid cds
          ∧ resp = ⟨(upload_doc db uid fn).doc_id, fn, cds.length⟩) := by
  unfold upload_contract
  by_cases hct : ct ∈ allowed_content_types
  · cases pr with
    | error e => simp [hct]
    | ok cds =>
      cases co with
      | false => simp [hct]
      | true =>
        refine ⟨by simp [hct, Except.isOk, Except.toBool], ?_⟩
        intro cds2 resp hcds hresp
        cases hcds
        simp [hct] at hresp ⊢
        simp [hresp]
  · simp [hct]

/-- C2 witness: an upload with the rejected content type text/html fails
and leaves the one-user store untouched. -/
theorem upload_atomic_witness :
    (upload_contract dbW 1 "text/html" "f.pdf" (Except.ok []) true).1 = dbW :=
  (upload_atomic dbW 1 "text/html" "f.pdf" (Except.ok []) true).1 rfl

/-- Every chunk row the upload transaction writes carries the new
document id and the requesting user id. -/
theorem mem_upload_chunks (db : Store) (uid : Nat) (cds : List ParsedChunk)
    (c : Chunk) (h : c ∈ upload_chunks db uid cds) :
    c.doc_id = db.next_id ∧ c.user_id = uid := by
  unfold upload_chunks at h
  obtain ⟨p, _, rfl⟩ := List.mem_map.mp h
  exact ⟨rfl, rfl⟩

/-- C6: upload_contract — the only operation that creates chunks —
preserves store well-formedness: afterwards every chunk still agrees
with its document on the owning user, because each new chunk is written
with user_id equal to the new document\x27s user_id and the fresh
document id collides with no existing row.  No execution attaches a
chunk to a document of a different user. -/
theorem upload_preserves_chunk_owner (db : Store) (uid : Nat) (ct fn : String)
    (pr : Except Unit (List ParsedChunk)) (co : Bool) (hwf : storeWF db) :
    storeWF (upload_contract db uid ct fn pr co).1 := by
  obtain ⟨hdocs, hchunks, hinv⟩ := hwf
  unfold upload_contract
  by_cases hct : ct ∈ allowed_content_types
  · cases pr with
    | error e => simpa [hct, storeWF] using ⟨hdocs, hchunks, hinv⟩
    | ok cds =>
      cases co with
      | false => simpa [hct, storeWF] using ⟨hdocs, hchunks, hinv⟩
      | true =>
        rw [if_neg (by simp [hct])]
        show storeWF ⟨db.users, db.documents ++ [upload_doc db uid fn],
          db.chunks ++ upload_chunks db uid cds, db.next_id + 1 + cds.length,
          db.now + 1⟩
        refine ⟨?_, ?_, ?_⟩
        · intro d hd
          show d.doc_id < db.next_id + 1 + cds.length
          rcases List.mem_append.mp hd with hl | hr
          · have := hdocs d hl; omega
          · rcases List.mem_singleton.mp hr with rfl
            show db.next_id < db.next_id + 1 + cds.length
            omega
        · intro c hc
          show c.doc_id < db.next_id + 1 + cds.length
          rcases List.mem_append.mp hc with hl | hr
          · have := hchunks c hl; omega
          · rcases mem_upload_chunks db uid cds c hr with ⟨hcd, _⟩
            rw [hcd]; omega
        · intro c hc d hd heq
          rcases List.mem_append.mp hc with hcl | hcr
          · rcases List.mem_append.mp hd with hdl | hdr
            · exact hinv c hcl d hdl heq
            · rcases List.mem_singleton.mp hdr with rfl
              have := hchunks c hcl
              exact absurd heq (by show c.doc_id ≠ db.next_id; omega)
          · rcases mem_upload_chunks db uid cds c hcr with ⟨hcd, hcu⟩
            rcases List.mem_append.mp hd with hdl | hdr
            · have := hdocs d hdl
              rw [hcd] at heq
              exact absurd heq.symm (by omega)
            · rcases List.mem_singleton.mp hdr with rfl
              rw [hcu]
              rfl
  · simpa [hct, storeWF] using ⟨hdocs, hchunks, hinv⟩

/-- C6 witness: uploading a parsed chunk into the well-formed one-user
store yields a store whose chunks all agree with their documents on the
owning user. -/
theorem upload_preserves_chunk_owner_witness :
    storeWF (upload_contract dbW 0 "application/pdf" "lease.pdf"
      (Except.ok [⟨"Termination clause", [3], [("page", JVal.num 2)]⟩]) true).1 :=
  upload_preserves_chunk_owner dbW 0 "application/pdf" "lease.pdf"
    (Except.ok [⟨"Termination clause", [3], [("page", JVal.num 2)]⟩]) true
    (by simp [storeWF, chunkUserInv, dbW])

/-- A document of user 1. -/
def docA : Document := ⟨10, 1, "lease.pdf", 1, "Active", "Low"⟩

/-- A chunk of docA, owned by user 1. -/
def chunkA : Chunk :=
  ⟨100, 10, 1, "Termination clause text", [1], [("page", JVal.num 2)], JVal.num 2, 1⟩

/-- A second chunk of docA, owned by user 1. -/
def chunkB : Chunk :=
  ⟨101, 10, 1, "Liability cap text", [2], [("page", JVal.num 5)], JVal.num 5, 1⟩

/-- The source the ask endpoint builds from chunkA at rank 0. -/
def sourceA : Source := ⟨"lease.pdf", "Termination clause text", JVal.num 2, 85⟩

/-- C1: every source the ask endpoint returns to user u1 comes from a
chunk row owned by u1 — the candidate query is filtered on
Chunk.user_id — so under the chunk/document ownership invariant none of
its originating documents belongs to a distinct user u2, whatever the
row order the store returns and whatever the query. -/
theorem ask_user_isolation (rows : List Chunk) (docs : List Document)
    (u1 u2 : Nat) (q : String) (qe : List Int) (s : Source)
    (hne : u1 ≠ u2) (hinv : chunkUserInv docs rows)
    (hs : s ∈ (query_contracts rows docs u1 q qe).sources) :
    ∃ c ∈ rows, c.user_id = u1 ∧ s.excerpt = c.text_chunk ∧
      ∀ d ∈ docs, d.doc_id = c.doc_id → d.user_id ≠ u2 := by
  unfold query_contracts at hs
  obtain ⟨⟨i, c⟩, hp, hfp⟩ := List.mem_map.mp hs
  have hlen := (List.mem_enum hp).1
  have hxc := (List.mem_enum hp).2
  have hcL : c ∈ ((rows.filter (fun c => c.user_id == u1)).take 5).take 3 := by
    rw [hxc]; exact List.getElem_mem _
  have hcF : c ∈ rows.filter (fun c => c.user_id == u1) :=
    List.mem_of_mem_take (List.mem_of_mem_take hcL)
  have hcrows := (List.mem_filter.mp hcF).1
  have hcu : c.user_id = u1 := by simpa using (List.mem_filter.mp hcF).2
  subst hfp
  refine ⟨c, hcrows, hcu, rfl, ?_⟩
  intro d hd hdc hdu2
  have hcd := hinv c hcrows d hd hdc.symm
  apply hne
  rw [← hcu, hcd, hdu2]

/-- C1 witness: user 1 queries a store whose single chunk row it owns;
the returned source is that chunk, and its document is not owned by
user 2. -/
theorem ask_user_isolation_witness :
    ∃ c ∈ [chunkA], c.user_id = 1 ∧ sourceA.excerpt = c.text_chunk ∧
      ∀ d ∈ [docA], d.doc_id = c.doc_id → d.user_id ≠ 2 :=
  ask_user_isolation [chunkA] [docA] 1 2 "termination" [] sourceA
    (by decide) (by unfold chunkUserInv; decide) (by decide)

/-- C7 amended: the ask endpoint performs no similarity ranking.  Source
i is simply the i-th of the first three of (at most five of) the
requesting user\x27s chunk rows in store-returned order, and its
relevance is the mock constant 85 + i * 3 — determined by position
alone, independent of the query embedding and of every chunk
embedding. -/
theorem ask_sources_shape (rows : List Chunk) (docs : List Document)
    (uid : Nat) (q : String) (qe : List Int) (i : Nat) :
    (query_contracts rows docs uid q qe).sources[i]?
      = (((rows.filter (fun c => c.user_id == uid)).take 5).take 3)[i]?.map
          (fun c => ⟨docFilename docs c.doc_id, c.text_chunk, c.page_number,
            85 + i * 3⟩) := by
  unfold query_contracts
  simp only [List.getElem?_map, List.getElem?_enum, Option.map_map]
  cases (((rows.filter (fun c => c.user_id == uid)).take 5).take 3)[i]? with
  | none => rfl
  | some c => rfl

/-- C7 counterexample: with two stored chunks the response reports
relevance 85 for the first source and 88 for the second — the first
source has strictly lower relevance, so relevance scores are not
highest-first (and no similarity between the query embedding and the
chunk embeddings is ever computed). -/
theorem ask_relevance_order_cex :
    (query_contracts [chunkA, chunkB] [docA] 1 "termination" []).sources.map
        Source.relevance = [85, 88]
    ∧ (85 : Nat) < 88 :=
  ⟨rfl, by decide⟩

/-- C8 amended: for a user owning zero chunk rows the ask endpoint does
not fail: it returns the generic mock answer with an empty sources
list; the reported confidence, however, is the same constant 94 as for
every other query, not a lowered one. -/
theorem ask_no_chunks (rows : List Chunk) (docs : List Document)
    (uid : Nat) (q : String) (qe : List Int)
    (h : ∀ c ∈ rows, c.user_id ≠ uid) :
    query_contracts rows docs uid q qe = ⟨mock_answer q, 94, []⟩ := by
  unfold query_contracts
  have hf : rows.filter (fun c => c.user_id == uid) = [] := by
    rw [List.filter_eq_nil_iff]
    intro c hc
    simpa using h c hc
  simp only [hf]
  rfl

/-- C8 witness: a user with no chunks gets the generic answer, an empty
sources list and confidence 94. -/
theorem ask_no_chunks_witness :
    query_contracts [] [] 7 "termination" [] = ⟨mock_answer "termination", 94, []⟩ :=
  ask_no_chunks [] [] 7 "termination" [] (by simp)

/-- C8 counterexample: the confidence reported to a user with zero
chunks is 94 — exactly the confidence reported when sources are found —
so the generic answer is not returned with a low confidence. -/
theorem ask_confidence_cex :
    (query_contracts [] [] 7 "termination" []).confidence = 94
    ∧ (query_contracts [chunkA] [docA] 1 "termination" []).confidence = 94
    ∧ (query_contracts [chunkA] [docA] 1 "termination" []).sources ≠ [] :=
  ⟨rfl, rfl, by decide⟩

/-- C9 amended: list_contracts returns exactly the documents owned by
the requesting user — a summary s is in the response iff some owned row
summarises to it — but the query has no ORDER BY, so the response order
is the store-returned row order, not a guaranteed timestamp order. -/
theorem list_contracts_exactly_owned (rows : List Document) (uid : Nat)
    (s : DocSummary) :
    s ∈ list_contracts rows uid
      ↔ ∃ d, d ∈ rows ∧ d.user_id = uid ∧ docSummary d = s := by
  unfold list_contracts
  simp [List.mem_filter, and_assoc]

/-- A document of user 1 uploaded at time 1. -/
def docX : Document := ⟨20, 1, "a.pdf", 1, "Active", "Low"⟩

/-- A document of user 1 uploaded at time 2. -/
def docY : Document := ⟨21, 1, "b.pdf", 2, "Active", "Low"⟩

/-- C9 counterexample: the same documents table handed to list_contracts
in two row orders — both possible results of the ORDER-BY-free query —
yields upload timestamps [1, 2] in one call and [2, 1] in the other:
the order is not one consistent timestamp direction across calls. -/
theorem list_contracts_order_cex :
    List.Perm [docX, docY] [docY, docX]
    ∧ (list_contracts [docX, docY] 1).map DocSummary.uploaded_on = [1, 2]
    ∧ (list_contracts [docY, docX] 1).map DocSummary.uploaded_on = [2, 1]
    ∧ list_contracts [docX, docY] 1 ≠ list_contracts [docY, docX] 1 :=
  ⟨List.Perm.swap docY docX [], rfl, rfl, by decide⟩

/-- C10: a successful ingestion persists, at each offset i past the
pre-existing chunks, a chunk whose page_number is the parsed chunk\x27s
metadata value at key "page" when that key is present, and the default
1 when it is absent. -/
theorem upload_page_default (db : Store) (uid : Nat) (fn : String)
    (cds : List ParsedChunk) (i : Nat) :
    ((upload_contract db uid "application/pdf" fn (Except.ok cds) true).1.chunks)[db.chunks.length + i]?.map
        Chunk.page_number
      = cds[i]?.map (fun cd =>
          match cd.metadata.lookup "page" with
          | some v => v
          | none => JVal.num 1) := by
  unfold upload_contract
  rw [if_neg (by decide)]
  show (db.chunks ++ upload_chunks db uid cds)[db.chunks.length + i]?.map
      Chunk.page_number = _
  rw [List.getElem?_append_right (Nat.le_add_right _ _)]
  have hsub : db.chunks.length + i - db.chunks.length = i := by omega
  rw [hsub]
  unfold upload_chunks
  simp only [List.getElem?_map, List.getElem?_enum, Option.map_map]
  cases cds[i]? with
  | none => rfl
  | some cd => simp [jsonGet]

end ContractIQ
